import Mathlib

/-!
Verification development for the ArgoCD MCP gateway server (`src/server.py`).

The server exposes:
* `POST /jsonrpc` — `jsonrpc_handler`: decodes the request body with
  `request.json()` (Python `json.loads`) and delegates to the external
  `mcp.handle_jsonrpc`;
* `GET /sse` — `event_generator`: an endless loop that each second re-reads
  `tools.json`, wraps it in a `tools/list` JSON-RPC notification and yields it
  as one server-sent event, turning any read/parse failure into an error event;
* `ArgoCDClient` — three outbound GET operations against the ArgoCD REST API,
  authenticated with a bearer token, with `verify=False` hard-coded and
  `resp.raise_for_status()` as the only error translation.

Python values are embedded shallowly: JSON documents as the inductive `Json`,
`json.dumps` / `json.loads` as executable Lean functions, HTTP traffic as
explicit request/response records with the outside world passed in as a
function, and raised exceptions as the `Except` error side.
-/

/-- A JSON document as produced by Python's `json` module.  Numbers are kept
as their source lexemes (Python distinguishes `1`, `1.0`, `1e0` only in the
text); objects keep insertion order like a Python `dict`. -/
inductive Json where
  | null : Json
  | bool : Bool → Json
  | num : String → Json
  | str : String → Json
  | arr : List Json → Json
  | obj : List (String × Json) → Json

/-- The `{` character (written via its code point). -/
def lbrace : Char := Char.ofNat 123

/-- The `}` character (written via its code point). -/
def rbrace : Char := Char.ofNat 125

/-- Lower-case hexadecimal digit, as in Python's `\uXXXX` escapes. -/
def hexDigit (n : Nat) : Char :=
  if n < 10 then Char.ofNat (48 + n) else Char.ofNat (87 + n)

/-- Four-digit lower-case hex rendering of a code unit. -/
def hex4 (n : Nat) : String :=
  String.mk [hexDigit (n / 4096 % 16), hexDigit (n / 256 % 16),
             hexDigit (n / 16 % 16), hexDigit (n % 16)]

/-- Escape one character the way `json.dumps` (default `ensure_ascii=True`)
does: short escapes for the usual controls, `\uXXXX` for other controls and
non-ASCII, surrogate pairs above the BMP. -/
def escapeChar (c : Char) : String :=
  if c = '"' then "\\\""
  else if c = '\\' then "\\\\"
  else if c = '\n' then "\\n"
  else if c = '\r' then "\\r"
  else if c = '\t' then "\\t"
  else if c.toNat = 8 then "\\b"
  else if c.toNat = 12 then "\\f"
  else if c.toNat < 32 then "\\u" ++ hex4 c.toNat
  else if c.toNat < 128 then String.singleton c
  else if c.toNat < 65536 then "\\u" ++ hex4 c.toNat
  else
    let v := c.toNat - 65536
    "\\u" ++ hex4 (55296 + v / 1024) ++ "\\u" ++ hex4 (56320 + v % 1024)

/-- `json.dumps` rendering of a string literal. -/
def dumpString (s : String) : String :=
  "\"" ++ String.join (s.data.map escapeChar) ++ "\""

mutual

/-- Python `json.dumps` with its default separators `", "` and `": "`. -/
def json_dumps : Json → String
  | Json.null => "null"
  | Json.bool true => "true"
  | Json.bool false => "false"
  | Json.num lexeme => lexeme
  | Json.str s => dumpString s
  | Json.arr xs => "[" ++ dumpsList xs ++ "]"
  | Json.obj ps => String.singleton lbrace ++ dumpsMembers ps ++ String.singleton rbrace

/-- Array elements joined by `", "`. -/
def dumpsList : List Json → String
  | [] => ""
  | [x] => json_dumps x
  | x :: y :: rest => json_dumps x ++ ", " ++ dumpsList (y :: rest)

/-- Object members joined by `", "`, each key and value separated by `": "`. -/
def dumpsMembers : List (String × Json) → String
  | [] => ""
  | [(k, v)] => dumpString k ++ ": " ++ json_dumps v
  | (k, v) :: m :: rest => dumpString k ++ ": " ++ json_dumps v ++ ", " ++ dumpsMembers (m :: rest)

end

/-! ### `json.loads`

A recursive-descent parser for the grammar Python's `json.loads` accepts
(strict mode, which is the default used by both `request.json()` and
`json.load`): the four JSON whitespace characters, `null` / `true` / `false`
plus the CPython extras `NaN` / `Infinity` / `-Infinity`, numbers without
leading zeros, strings with the standard escapes (controls must be escaped),
arrays, objects with string keys (duplicate keys keep the first position and
the last value, as a Python `dict` does).  Recursion is by explicit fuel; the
top level supplies more than enough for the input length. -/

/-- The whitespace characters `json.loads` skips. -/
def isJsonWs (c : Char) : Bool :=
  c = ' ' || c = '\t' || c = '\n' || c = '\r'

/-- Skip JSON whitespace. -/
def skipWs (cs : List Char) : List Char := cs.dropWhile isJsonWs

/-- Decimal digit test. -/
def isDigitChar (c : Char) : Bool := '0' ≤ c && c ≤ '9'

/-- Value of one hexadecimal digit. -/
def hexVal (c : Char) : Option Nat :=
  if '0' ≤ c && c ≤ '9' then some (c.toNat - 48)
  else if 'a' ≤ c && c ≤ 'f' then some (c.toNat - 87)
  else if 'A' ≤ c && c ≤ 'F' then some (c.toNat - 55)
  else none

/-- Read four hex digits (the payload of a `\uXXXX` escape). -/
def parseHex4 : List Char → Option (Nat × List Char)
  | c1 :: c2 :: c3 :: c4 :: rest => do
    let v1 ← hexVal c1
    let v2 ← hexVal c2
    let v3 ← hexVal c3
    let v4 ← hexVal c4
    pure (v1 * 4096 + v2 * 256 + v3 * 16 + v4, rest)
  | _ => none

/-- Parse the body of a string literal after the opening quote, returning the
decoded contents and the remaining input after the closing quote.  Mirrors
CPython's strict scanner: raw control characters below 0x20 are rejected,
`\uXXXX` escapes decode code units with surrogate pairs combined. -/
def parseStringBody : Nat → List Char → Option (String × List Char)
  | 0, _ => none
  | _, [] => none
  | fuel + 1, c :: rest =>
    if c = '"' then some ("", rest)
    else if c = '\\' then
      match rest with
      | [] => none
      | e :: rest1 =>
        if e = '"' ∨ e = '\\' ∨ e = '/' then do
          let (s, rem) ← parseStringBody fuel rest1
          pure (String.singleton e ++ s, rem)
        else if e = 'b' then do
          let (s, rem) ← parseStringBody fuel rest1
          pure (String.singleton (Char.ofNat 8) ++ s, rem)
        else if e = 'f' then do
          let (s, rem) ← parseStringBody fuel rest1
          pure (String.singleton (Char.ofNat 12) ++ s, rem)
        else if e = 'n' then do
          let (s, rem) ← parseStringBody fuel rest1
          pure ("\n" ++ s, rem)
        else if e = 'r' then do
          let (s, rem) ← parseStringBody fuel rest1
          pure ("\r" ++ s, rem)
        else if e = 't' then do
          let (s, rem) ← parseStringBody fuel rest1
          pure ("\t" ++ s, rem)
        else if e = 'u' then do
          let (u, rest2) ← parseHex4 rest1
          if 55296 ≤ u ∧ u < 56320 then
            match rest2 with
            | '\\' :: 'u' :: rest3 => do
              let (u2, rest4) ← parseHex4 rest3
              if 56320 ≤ u2 ∧ u2 < 57344 then do
                let (s, rem) ← parseStringBody fuel rest4
                pure (String.singleton (Char.ofNat (65536 + (u - 55296) * 1024 + (u2 - 56320))) ++ s, rem)
              else none
            | _ => none
          else do
            let (s, rem) ← parseStringBody fuel rest2
            pure (String.singleton (Char.ofNat u) ++ s, rem)
        else none
    else if c.toNat < 32 then none
    else do
      let (s, rem) ← parseStringBody fuel rest
      pure (String.singleton c ++ s, rem)

/-- Parse a number lexeme (`-? (0 | [1-9][0-9]*) frac? exp?`), returning its
source text.  `none` when the input does not start with a valid number. -/
def parseNumber (cs : List Char) : Option (String × List Char) :=
  let (sign, afterSign) :=
    match cs with
    | '-' :: rest => ("-", rest)
    | _ => ("", cs)
  match afterSign with
  | [] => none
  | d :: rest =>
    if !isDigitChar d then none
    else
      let (intPart, afterInt) :=
        if d = '0' then ("0", rest)
        else (String.mk (d :: rest.takeWhile isDigitChar), rest.dropWhile isDigitChar)
      let (fracPart, afterFrac) :=
        match afterInt with
        | '.' :: f :: frest =>
          if isDigitChar f then
            ("." ++ String.mk (f :: frest.takeWhile isDigitChar), frest.dropWhile isDigitChar)
          else ("", afterInt)
        | _ => ("", afterInt)
      if fracPart = "" && (match afterInt with | '.' :: _ => true | _ => false) then none
      else
        let expRes : Option (String × List Char) :=
          match afterFrac with
          | e :: erest =>
            if e = 'e' ∨ e = 'E' then
              let (esign, afterEsign) :=
                match erest with
                | '+' :: r => ("+", r)
                | '-' :: r => ("-", r)
                | _ => ("", erest)
              match afterEsign with
              | g :: grest =>
                if isDigitChar g then
                  some (String.singleton e ++ esign ++ String.mk (g :: grest.takeWhile isDigitChar),
                        grest.dropWhile isDigitChar)
                else none
              | [] => none
            else some ("", afterFrac)
          | [] => some ("", afterFrac)
        match expRes with
        | none => none
        | some (expPart, rem) => some (sign ++ intPart ++ fracPart ++ expPart, rem)

/-- Does `pre` start the list, and what follows it? -/
def stripPrefixChars : List Char → List Char → Option (List Char)
  | [], cs => some cs
  | _, [] => none
  | p :: ps, c :: cs => if p = c then stripPrefixChars ps cs else none

/-- Insert into an object the way assignment inserts into a Python `dict`:
an existing key keeps its position and takes the new value. -/
def objInsert (k : String) (v : Json) : List (String × Json) → List (String × Json)
  | [] => [(k, v)]
  | (k0, v0) :: rest => if k0 = k then (k0, v) :: rest else (k0, v0) :: objInsert k v rest

mutual

/-- Parse one JSON value (leading whitespace allowed), returning it and the
rest of the input. -/
def parseValue : Nat → List Char → Option (Json × List Char)
  | 0, _ => none
  | fuel + 1, cs =>
    match skipWs cs with
    | [] => none
    | c :: rest =>
      if c = lbrace then parseObjTail fuel true [] rest
      else if c = '[' then parseArrTail fuel true [] rest
      else if c = '"' then do
        let (s, rem) ← parseStringBody (fuel + 1) rest
        pure (Json.str s, rem)
      else
        match stripPrefixChars ['t', 'r', 'u', 'e'] (c :: rest) with
        | some rem => some (Json.bool true, rem)
        | none =>
        match stripPrefixChars ['f', 'a', 'l', 's', 'e'] (c :: rest) with
        | some rem => some (Json.bool false, rem)
        | none =>
        match stripPrefixChars ['n', 'u', 'l', 'l'] (c :: rest) with
        | some rem => some (Json.null, rem)
        | none =>
        match stripPrefixChars ['N', 'a', 'N'] (c :: rest) with
        | some rem => some (Json.num "NaN", rem)
        | none =>
        match stripPrefixChars ['I', 'n', 'f', 'i', 'n', 'i', 't', 'y'] (c :: rest) with
        | some rem => some (Json.num "Infinity", rem)
        | none =>
        match stripPrefixChars ['-', 'I', 'n', 'f', 'i', 'n', 'i', 't', 'y'] (c :: rest) with
        | some rem => some (Json.num "-Infinity", rem)
        | none => do
          let (lexeme, rem) ← parseNumber (c :: rest)
          pure (Json.num lexeme, rem)

/-- After `{` (when `first` is true) or after a `,`: parse the members of an
object and its closing brace. -/
def parseObjTail : Nat → Bool → List (String × Json) → List Char → Option (Json × List Char)
  | 0, _, _, _ => none
  | fuel + 1, first, acc, cs =>
    match skipWs cs with
    | [] => none
    | c :: rest =>
      if first ∧ c = rbrace then some (Json.obj acc, rest)
      else if c = '"' then do
        let (k, rest1) ← parseStringBody (fuel + 1) rest
        match skipWs rest1 with
        | ':' :: rest2 => do
          let (v, rest3) ← parseValue fuel rest2
          match skipWs rest3 with
          | ',' :: rest4 => parseObjTail fuel false (objInsert k v acc) rest4
          | d :: rest4 =>
            if d = rbrace then some (Json.obj (objInsert k v acc), rest4) else none
          | [] => none
        | _ => none
      else none

/-- After `[` (when `first` is true) or after a `,`: parse the elements of an
array and its closing bracket. -/
def parseArrTail : Nat → Bool → List Json → List Char → Option (Json × List Char)
  | 0, _, _, _ => none
  | fuel + 1, first, acc, cs =>
    match skipWs cs with
    | [] => none
    | c :: rest =>
      if first ∧ c = ']' then some (Json.arr acc.reverse, rest)
      else do
        let (v, rest1) ← parseValue fuel (c :: rest)
        match skipWs rest1 with
        | ',' :: rest2 => parseArrTail fuel false (v :: acc) rest2
        | ']' :: rest2 => some (Json.arr (v :: acc).reverse, rest2)
        | _ => none

end

/-- Python `json.loads`: parse a complete document, reject trailing input.
`none` stands for a raised `json.JSONDecodeError`. -/
def json_loads (s : String) : Option Json :=
  match parseValue (8 * (s.length + 1)) s.data with
  | some (j, rest) => if skipWs rest = [] then some j else none
  | none => none

/-! ### The server (`src/server.py`)

Raised Python exceptions are the error side of `Except`; outbound HTTP is a
request record handed to a `world` function standing for the network. -/

/-- The exceptions the embedded code can raise.
* `jsonDecodeError` — `json.JSONDecodeError` from `json.loads`;
* `httpError` — `requests.HTTPError` from `resp.raise_for_status()`, whose
  attached response carries the status code and body;
* `valueError` — the startup `ValueError`. -/
inductive PyException where
  | jsonDecodeError : PyException
  | httpError : Nat → String → PyException
  | valueError : String → PyException

/-- An outbound HTTP request as assembled by a `requests.get(...)` call:
URL, headers, query parameters (the `params=` keyword) and the `verify=`
keyword. -/
structure HttpRequest where
  reqMethod : String
  url : String
  headers : List (String × String)
  queryParams : List (String × String)
  verify : Bool

/-- The remote side's answer: status code and body text. -/
structure HttpResponse where
  status_code : Nat
  body : String

/-- `requests.Response.raise_for_status`: raises `HTTPError` exactly when the
status code is in `[400, 600)` (client or server error); informational and
redirect statuses pass silently. -/
def raise_for_status (r : HttpResponse) : Except PyException Unit :=
  if 400 ≤ r.status_code ∧ r.status_code < 600 then
    Except.error (PyException.httpError r.status_code r.body)
  else Except.ok ()

/-- `requests.Response.json`: decode the body with `json.loads`. -/
def responseJson (r : HttpResponse) : Except PyException Json :=
  match json_loads r.body with
  | some j => Except.ok j
  | none => Except.error PyException.jsonDecodeError

/-- `ArgoCDClient.__init__`: keeps the base URL with trailing `/` stripped and
the two request headers built from the token. -/
structure ArgoCDClient where
  base_url : String
  headers : List (String × String)

/-- Python `str.rstrip("/")` on the character list. -/
def rstripSlashList (cs : List Char) : List Char :=
  (cs.reverse.dropWhile (fun c => c = '/')).reverse

/-- Python `base_url.rstrip("/")`. -/
def rstripSlashes (s : String) : String := String.mk (rstripSlashList s.data)

/-- `ArgoCDClient(base_url, token)`. -/
def ArgoCDClient.init (base_url : String) (token : String) : ArgoCDClient :=
  { base_url := rstripSlashes base_url
    headers := [("Authorization", "Bearer " ++ token),
                ("Content-Type", "application/json")] }

/-- One `requests.get` call followed by `raise_for_status` and `.json()`, as
each client method performs it.  Returns the method's outcome together with
the list of requests actually issued on the wire — always exactly the one
request, since the source has no loop or retry around `requests.get`. -/
def argoGet (world : HttpRequest → HttpResponse) (req : HttpRequest) :
    Except PyException Json × List HttpRequest :=
  let resp := world req
  let result : Except PyException Json :=
    match raise_for_status resp with
    | Except.error e => Except.error e
    | Except.ok _ => responseJson resp
  (result, [req])

/-- The request `list_applications` assembles: `params = {"search": search}
if search else {}` (Python truthiness: `None` and `""` both give `{}`), URL
`{base_url}/api/v1/applications`, the client's headers, `verify=False`. -/
def listApplicationsRequest (c : ArgoCDClient) (search : Option String) : HttpRequest :=
  { reqMethod := "GET"
    url := c.base_url ++ "/api/v1/applications"
    headers := c.headers
    queryParams :=
      match search with
      | some s => if s = "" then [] else [("search", s)]
      | none => []
    verify := false }

/-- The request `get_application` assembles:
`{base_url}/api/v1/applications/{name}`, the client's headers, `verify=False`. -/
def getApplicationRequest (c : ArgoCDClient) (name : String) : HttpRequest :=
  { reqMethod := "GET"
    url := c.base_url ++ "/api/v1/applications/" ++ name
    headers := c.headers
    queryParams := []
    verify := false }

/-- The request `get_application_resource_tree` assembles:
`{base_url}/api/v1/applications/{name}/resource-tree`, the client's headers,
`verify=False`. -/
def resourceTreeRequest (c : ArgoCDClient) (name : String) : HttpRequest :=
  { reqMethod := "GET"
    url := c.base_url ++ "/api/v1/applications/" ++ name ++ "/resource-tree"
    headers := c.headers
    queryParams := []
    verify := false }

/-- `ArgoCDClient.list_applications`. -/
def ArgoCDClient.list_applications (c : ArgoCDClient) (world : HttpRequest → HttpResponse)
    (search : Option String) : Except PyException Json × List HttpRequest :=
  argoGet world (listApplicationsRequest c search)

/-- `ArgoCDClient.get_application`. -/
def ArgoCDClient.get_application (c : ArgoCDClient) (world : HttpRequest → HttpResponse)
    (name : String) : Except PyException Json × List HttpRequest :=
  argoGet world (getApplicationRequest c name)

/-- `ArgoCDClient.get_application_resource_tree`. -/
def ArgoCDClient.get_application_resource_tree (c : ArgoCDClient)
    (world : HttpRequest → HttpResponse) (name : String) :
    Except PyException Json × List HttpRequest :=
  argoGet world (resourceTreeRequest c name)

/-- Python truthiness of `os.getenv`'s result: `None` and `""` are falsy. -/
def truthyEnv : Option String → Bool
  | none => false
  | some s => !(s = "")

/-- The state the module reaches when its top level runs to completion: the
constructed client and the routes the FastAPI app then serves. -/
structure ServerState where
  client : ArgoCDClient
  routes : List String

/-- Module start-up: read `ARGOCD_BASE_URL` and `ARGOCD_API_TOKEN` from the
environment, raise `ValueError` if either is falsy, otherwise build the
client and register the endpoints.  `env` is `os.getenv`. -/
def startup (env : String → Option String) : Except PyException ServerState :=
  let argocd_base_url := env "ARGOCD_BASE_URL"
  let argocd_api_token := env "ARGOCD_API_TOKEN"
  if !truthyEnv argocd_base_url || !truthyEnv argocd_api_token then
    Except.error (PyException.valueError
      "Missing ARGOCD_BASE_URL or ARGOCD_API_TOKEN in environment/.env")
  else
    Except.ok
      { client := ArgoCDClient.init (argocd_base_url.getD "") (argocd_api_token.getD "")
        routes := ["/jsonrpc", "/sse", "/healthz"] }

/-- The `set_environment` stub tool: a fixed-shape acknowledgment built from
its bound arguments.  The Python parameter `variables` is a `dict`, embedded
as an insertion-ordered association list (named `vars0` because `variables`
is a reserved word in Lean). -/
def set_environment (environment_name : String) (vars0 : List (String × Json)) : Json :=
  Json.obj [("status", Json.str "success"),
            ("message", Json.str ("Environment " ++ environment_name ++ " configured")),
            ("variables", Json.obj vars0)]

/-- `jsonrpc_handler`: `body = await request.json()` (a `json.loads` of the
raw body, with no surrounding try/except), then
`response = await mcp.handle_jsonrpc(body)` — a call into the external `mcp`
library, passed in here as `handle_jsonrpc` — and `JSONResponse(response)`.
The `Except.error` side is an exception propagating out of the handler to the
transport. -/
def jsonrpc_handler (handle_jsonrpc : Json → Except PyException Json)
    (rawBody : String) : Except PyException Json :=
  match json_loads rawBody with
  | none => Except.error PyException.jsonDecodeError
  | some body => handle_jsonrpc body

/-- One tick of `event_generator`'s `while True` body.  The outside world per
tick is the outcome of `open(TOOLS_FILE_PATH)` + `json.load(f)`: either the
parsed document or the raised exception's `str(e)`.  Both branches build one
`tools/list` message and yield one `data: ...\n\n` line. -/
def catalogTickMsg (readResult : Except String Json) : Json :=
  match readResult with
  | Except.ok tools_event =>
    Json.obj [("jsonrpc", Json.str "2.0"), ("method", Json.str "tools/list"),
              ("params", tools_event)]
  | Except.error e =>
    Json.obj [("jsonrpc", Json.str "2.0"), ("method", Json.str "tools/list"),
              ("params", Json.obj [("error", Json.str e)])]

/-- The server-sent-event line a tick yields. -/
def sseLine (readResult : Except String Json) : String :=
  "data: " ++ json_dumps (catalogTickMsg readResult) ++ "\n\n"

/-- `event_generator`, driven by the per-tick read outcomes: the loop yields
exactly one event per tick, in tick order, and never exits on a failed read
(the `except` branch also ends in `yield` and falls through to the sleep). -/
def event_generator (reads : List (Except String Json)) : List String :=
  reads.map sseLine

/-! ### Helper lemmas -/

/-- The first element surviving `dropWhile` does not satisfy the predicate. -/
theorem head?_dropWhile_false (p : Char → Bool) (l : List Char) (a : Char)
    (h : (l.dropWhile p).head? = some a) : p a = false := by
  induction l with
  | nil => simp [List.dropWhile] at h
  | cons x xs ih =>
    rw [List.dropWhile_cons] at h
    by_cases hx : p x
    · rw [if_pos hx] at h
      exact ih h
    · rw [if_neg hx] at h
      simp only [List.head?_cons, Option.some.injEq] at h
      rw [← h]
      exact Bool.eq_false_iff.mpr hx

/-- `rstrip("/")` leaves no trailing slash. -/
theorem rstripSlashes_no_trailing_slash (s : String) :
    (rstripSlashes s).data.getLast? ≠ some '/' := by
  intro h
  unfold rstripSlashes rstripSlashList at h
  rw [List.getLast?_reverse] at h
  have := head?_dropWhile_false _ _ _ h
  simp at this

/-- The result component of one GET-then-raise-then-decode round trip,
classified by the response's status code. -/
theorem argoGet_fst (world : HttpRequest → HttpResponse) (req : HttpRequest) :
    (argoGet world req).1 =
      if 400 ≤ (world req).status_code ∧ (world req).status_code < 600 then
        Except.error (PyException.httpError (world req).status_code (world req).body)
      else responseJson (world req) := by
  unfold argoGet raise_for_status
  by_cases h : 400 ≤ (world req).status_code ∧ (world req).status_code < 600
  · simp [h]
  · simp [h]

/-! ### Claims -/

/-- Claim C8 (confirmed): the `set_environment` stub handler is a pure
function of its two bound arguments — the source body reads nothing but its
parameters — so dispatching the same well-formed request twice produces the
same result value and hence byte-identical serialized `result` payloads. -/
theorem C8_set_environment_deterministic (n1 n2 : String)
    (v1 v2 : List (String × Json)) (hn : n1 = n2) (hv : v1 = v2) :
    set_environment n1 v1 = set_environment n2 v2 ∧
    json_dumps (set_environment n1 v1) = json_dumps (set_environment n2 v2) := by
  subst hn
  subst hv
  exact ⟨rfl, rfl⟩

/-- Witness for C8 at a concrete `set_environment` request. -/
theorem C8_witness :
    set_environment "dev" [("REGION", Json.str "us-east-1")] =
      set_environment "dev" [("REGION", Json.str "us-east-1")] ∧
    json_dumps (set_environment "dev" [("REGION", Json.str "us-east-1")]) =
      json_dumps (set_environment "dev" [("REGION", Json.str "us-east-1")]) :=
  C8_set_environment_deterministic "dev" "dev"
    [("REGION", Json.str "us-east-1")] [("REGION", Json.str "us-east-1")] rfl rfl

/-- An environment where both ArgoCD variables are set, but the base URL is
set to the empty string. -/
def envEmptyBase : String → Option String := fun k =>
  if k = "ARGOCD_BASE_URL" then some ""
  else if k = "ARGOCD_API_TOKEN" then some "token123" else none

/-- Claim C9 counterexample: both configuration values are present in the
environment (`os.getenv` returns a string for both), yet startup raises the
`ValueError`, because the check uses Python truthiness and the empty string is
falsy.  This refutes the claim's "if both are present, startup proceeds". -/
theorem C9_counterexample :
    envEmptyBase "ARGOCD_BASE_URL" = some "" ∧
    envEmptyBase "ARGOCD_API_TOKEN" = some "token123" ∧
    startup envEmptyBase = Except.error (PyException.valueError
      "Missing ARGOCD_BASE_URL or ARGOCD_API_TOKEN in environment/.env") :=
  ⟨rfl, rfl, rfl⟩

/-- Claim C9 as amended (corrected): startup raises `ValueError` — before the
client is built and before any route exists, since a `ServerState` is only
produced on the `ok` side — iff either configuration value is missing **or
empty**; when both are present and non-empty, startup completes with the
client and the three routes. -/
theorem C9_startup_check (env : String → Option String) :
    ((env "ARGOCD_BASE_URL" = none ∨ env "ARGOCD_BASE_URL" = some "" ∨
      env "ARGOCD_API_TOKEN" = none ∨ env "ARGOCD_API_TOKEN" = some "") →
      startup env = Except.error (PyException.valueError
        "Missing ARGOCD_BASE_URL or ARGOCD_API_TOKEN in environment/.env")) ∧
    (∀ b t, env "ARGOCD_BASE_URL" = some b → env "ARGOCD_API_TOKEN" = some t →
      b ≠ "" → t ≠ "" →
      startup env = Except.ok
        { client := ArgoCDClient.init b t
          routes := ["/jsonrpc", "/sse", "/healthz"] }) := by
  constructor
  · intro h
    unfold startup truthyEnv
    rcases h with h | h | h | h <;> rw [h] <;> simp
  · intro b t hb ht hbne htne
    unfold startup truthyEnv
    rw [hb, ht]
    simp [hbne, htne]

/-- Witness for C9: a fully absent environment is fatal, and a concrete
non-empty environment starts up with the three routes. -/
theorem C9_witness :
    startup (fun _ => none) = Except.error (PyException.valueError
      "Missing ARGOCD_BASE_URL or ARGOCD_API_TOKEN in environment/.env") ∧
    startup envEmptyBase = Except.error (PyException.valueError
      "Missing ARGOCD_BASE_URL or ARGOCD_API_TOKEN in environment/.env") :=
  ⟨(C9_startup_check (fun _ => none)).1 (Or.inl rfl),
   (C9_startup_check envEmptyBase).1 (Or.inr (Or.inl rfl))⟩

/-- Claim C10 (confirmed): the constructor strips every trailing `/` from the
configured base URL, the stripped base never ends in `/`, and all three
operation URLs are the stripped base joined to their `/api/v1/...` path, so
the join point carries exactly the one slash the path contributes. -/
theorem C10_base_url_join (base token name tname : String) (search : Option String) :
    (ArgoCDClient.init base token).base_url = rstripSlashes base ∧
    (rstripSlashes base).data.getLast? ≠ some '/' ∧
    (listApplicationsRequest (ArgoCDClient.init base token) search).url =
      rstripSlashes base ++ "/api/v1/applications" ∧
    (getApplicationRequest (ArgoCDClient.init base token) name).url =
      rstripSlashes base ++ "/api/v1/applications/" ++ name ∧
    (resourceTreeRequest (ArgoCDClient.init base token) tname).url =
      rstripSlashes base ++ "/api/v1/applications/" ++ tname ++ "/resource-tree" :=
  ⟨rfl, rstripSlashes_no_trailing_slash base, rfl, rfl, rfl⟩

/-- Claim C4 (confirmed): a tick whose read or parse of `tools.json` fails
still emits exactly one event — the stream stays in lock-step with the ticks
(`length` equality), the failing tick's event is the `tools/list` message with
`params = {"error": str(e)}` (non-empty whenever the exception's string is,
as it is for `FileNotFoundError` and `json.JSONDecodeError`), and any later
tick whose read succeeds again emits the normal catalog event: the loop
never stops over a failure. -/
theorem C4_catalog_failure_not_fatal (reads : List (Except String Json)) (i : Nat)
    (m : String) (hm : m ≠ "") (hread : reads[i]? = some (Except.error m)) :
    (event_generator reads).length = reads.length ∧
    (event_generator reads)[i]? =
      some ("data: " ++ json_dumps (Json.obj
        [("jsonrpc", Json.str "2.0"), ("method", Json.str "tools/list"),
         ("params", Json.obj [("error", Json.str m)])]) ++ "\n\n") ∧
    m ≠ "" ∧
    (∀ (j : Nat) (doc : Json), reads[j]? = some (Except.ok doc) →
      (event_generator reads)[j]? =
        some ("data: " ++ json_dumps (Json.obj
          [("jsonrpc", Json.str "2.0"), ("method", Json.str "tools/list"),
           ("params", doc)]) ++ "\n\n")) := by
  refine ⟨List.length_map reads sseLine, ?_, hm, ?_⟩
  · rw [event_generator, List.getElem?_map, hread]
    rfl
  · intro j doc hj
    rw [event_generator, List.getElem?_map, hj]
    rfl

/-- Witness for C4: the source file is deleted at tick 0 (a
`FileNotFoundError`) and restored for tick 1; the stream emits the error
event then the normal event. -/
theorem C4_witness :
    (event_generator [Except.error "[Errno 2] No such file or directory: tools.json",
        Except.ok (Json.arr [])]).length = 2 ∧
    (event_generator [Except.error "[Errno 2] No such file or directory: tools.json",
        Except.ok (Json.arr [])])[0]? =
      some ("data: " ++ json_dumps (Json.obj
        [("jsonrpc", Json.str "2.0"), ("method", Json.str "tools/list"),
         ("params", Json.obj [("error",
            Json.str "[Errno 2] No such file or directory: tools.json")])]) ++ "\n\n") ∧
    ("[Errno 2] No such file or directory: tools.json" : String) ≠ "" ∧
    (event_generator [Except.error "[Errno 2] No such file or directory: tools.json",
        Except.ok (Json.arr [])])[1]? =
      some ("data: " ++ json_dumps (Json.obj
        [("jsonrpc", Json.str "2.0"), ("method", Json.str "tools/list"),
         ("params", Json.arr [])]) ++ "\n\n") := by
  have h := C4_catalog_failure_not_fatal
    [Except.error "[Errno 2] No such file or directory: tools.json", Except.ok (Json.arr [])]
    0 "[Errno 2] No such file or directory: tools.json" (by decide) rfl
  exact ⟨h.1, h.2.1, h.2.2.1, h.2.2.2 1 (Json.arr []) rfl⟩

/-- Claim C5 (confirmed): every event the `/sse` generator emits is the line
`data: <json>\n\n` where `<json>` serializes an object with `jsonrpc = "2.0"`,
`method = "tools/list"`, and `params` equal to that tick's parsed document
(successful read) or to the `{"error": ...}` object (failed read) — no other
shape is ever yielded. -/
theorem C5_sse_event_shape (reads : List (Except String Json)) (i : Nat) (ev : String)
    (h : (event_generator reads)[i]? = some ev) :
    ∃ r, reads[i]? = some r ∧
      ev = "data: " ++ json_dumps (catalogTickMsg r) ++ "\n\n" ∧
      ((∃ doc, r = Except.ok doc ∧
          catalogTickMsg r = Json.obj
            [("jsonrpc", Json.str "2.0"), ("method", Json.str "tools/list"),
             ("params", doc)]) ∨
       (∃ m, r = Except.error m ∧
          catalogTickMsg r = Json.obj
            [("jsonrpc", Json.str "2.0"), ("method", Json.str "tools/list"),
             ("params", Json.obj [("error", Json.str m)])])) := by
  rw [event_generator, List.getElem?_map] at h
  cases hr : reads[i]? with
  | none => rw [hr] at h; cases h
  | some r =>
    rw [hr] at h
    simp only [Option.map_some', Option.some.injEq] at h
    refine ⟨r, rfl, h.symm, ?_⟩
    cases r with
    | ok doc => exact Or.inl ⟨doc, rfl, rfl⟩
    | error m => exact Or.inr ⟨m, rfl, rfl⟩

/-- Witness for C5 at a one-tick stream with an empty catalog document. -/
theorem C5_witness :
    ∃ r, ([Except.ok (Json.arr [])] : List (Except String Json))[0]? = some r ∧
      ("data: " ++ json_dumps (Json.obj
          [("jsonrpc", Json.str "2.0"), ("method", Json.str "tools/list"),
           ("params", Json.arr [])]) ++ "\n\n") =
        "data: " ++ json_dumps (catalogTickMsg r) ++ "\n\n" ∧
      ((∃ doc, r = Except.ok doc ∧
          catalogTickMsg r = Json.obj
            [("jsonrpc", Json.str "2.0"), ("method", Json.str "tools/list"),
             ("params", doc)]) ∨
       (∃ m, r = Except.error m ∧
          catalogTickMsg r = Json.obj
            [("jsonrpc", Json.str "2.0"), ("method", Json.str "tools/list"),
             ("params", Json.obj [("error", Json.str m)])])) :=
  C5_sse_event_shape [Except.ok (Json.arr [])] 0
    ("data: " ++ json_dumps (Json.obj
      [("jsonrpc", Json.str "2.0"), ("method", Json.str "tools/list"),
       ("params", Json.arr [])]) ++ "\n\n") rfl

/-- Claim C1 counterexample: the body `"{"` is not valid JSON; `jsonrpc_handler`
(shown here with the identity continuation standing for the external
`mcp.handle_jsonrpc`, which the parse-failure path never reaches) ends on the
exception side — the `json.JSONDecodeError` raised by `request.json()`
propagates past the handler to the transport, so no JSON-RPC envelope, in
particular no `-32700` envelope with `id = null`, is produced. -/
theorem C1_counterexample :
    jsonrpc_handler Except.ok (String.singleton lbrace) =
      Except.error PyException.jsonDecodeError :=
  rfl

/-- Claim C1 as amended (corrected): for every request body the JSON decoder
rejects, `jsonrpc_handler` re-raises the decode error past its own boundary
(there is no `try`/`except` around `request.json()`), and only a body that
parses is handed to the external `mcp.handle_jsonrpc`, whose outcome the
handler returns unchanged. -/
theorem C1_parse_error_escapes (handle_jsonrpc : Json → Except PyException Json)
    (rawBody : String) :
    (json_loads rawBody = none →
      jsonrpc_handler handle_jsonrpc rawBody = Except.error PyException.jsonDecodeError) ∧
    (∀ body, json_loads rawBody = some body →
      jsonrpc_handler handle_jsonrpc rawBody = handle_jsonrpc body) := by
  constructor
  · intro h
    unfold jsonrpc_handler
    rw [h]
  · intro body h
    unfold jsonrpc_handler
    rw [h]

/-- Witness for C1 at the concrete malformed body `not json`. -/
theorem C1_witness :
    jsonrpc_handler Except.ok "not json" = Except.error PyException.jsonDecodeError :=
  (C1_parse_error_escapes Except.ok "not json").1 rfl

/-- A control plane that answers `304 Not Modified` with body `{}` to every
request. -/
def world304 : HttpRequest → HttpResponse :=
  fun _ => { status_code := 304
             body := String.singleton lbrace ++ String.singleton rbrace }

/-- Claim C3 counterexample: `304` is outside `[200, 299]`, yet
`get_application` succeeds — `raise_for_status` only raises for statuses in
`[400, 600)`, so the redirect-class response is decoded as if it were a
success.  This refutes "any status outside [200,299] fails with
`RemoteApiError`". -/
theorem C3_counterexample :
    ¬(200 ≤ 304 ∧ 304 ≤ 299) ∧
    ((ArgoCDClient.init "https://argocd.example.com" "token123").get_application
        world304 "payments").1 = Except.ok (Json.obj []) :=
  ⟨by decide, rfl⟩

/-- Claim C3 as amended (corrected): for each of the three read operations,
the outcome is determined by the wire response exactly as
`resp.raise_for_status()` followed by `resp.json()` dictates — a status in
`[400, 600)` fails with the `HTTPError` carrying that status and the response
body; any other status (all of `[200, 299]`, but also the informational and
redirect ranges the claim said would fail) proceeds to decode the body,
succeeding with the decoded JSON document. -/
theorem C3_status_translation (c : ArgoCDClient) (world : HttpRequest → HttpResponse)
    (search : Option String) (name tname : String) :
    ((c.list_applications world search).1 =
      if 400 ≤ (world (listApplicationsRequest c search)).status_code ∧
          (world (listApplicationsRequest c search)).status_code < 600 then
        Except.error (PyException.httpError
          (world (listApplicationsRequest c search)).status_code
          (world (listApplicationsRequest c search)).body)
      else responseJson (world (listApplicationsRequest c search))) ∧
    ((c.get_application world name).1 =
      if 400 ≤ (world (getApplicationRequest c name)).status_code ∧
          (world (getApplicationRequest c name)).status_code < 600 then
        Except.error (PyException.httpError
          (world (getApplicationRequest c name)).status_code
          (world (getApplicationRequest c name)).body)
      else responseJson (world (getApplicationRequest c name))) ∧
    ((c.get_application_resource_tree world tname).1 =
      if 400 ≤ (world (resourceTreeRequest c tname)).status_code ∧
          (world (resourceTreeRequest c tname)).status_code < 600 then
        Except.error (PyException.httpError
          (world (resourceTreeRequest c tname)).status_code
          (world (resourceTreeRequest c tname)).body)
      else responseJson (world (resourceTreeRequest c tname))) :=
  ⟨argoGet_fst world (listApplicationsRequest c search),
   argoGet_fst world (getApplicationRequest c name),
   argoGet_fst world (resourceTreeRequest c tname)⟩

/-- Claim C6 (confirmed): each client operation puts exactly one GET request
on the wire — whatever the response, so never a retry — aimed at its
operation-specific path under the stripped base URL, carrying the
`Authorization: Bearer <token>` and `Content-Type: application/json`
headers, and, for `list_applications`, the optional `search` query. -/
theorem C6_single_get (base token : String) (world : HttpRequest → HttpResponse)
    (search : Option String) (name tname : String) :
    ((ArgoCDClient.init base token).list_applications world search).2 =
      [{ reqMethod := "GET"
         url := rstripSlashes base ++ "/api/v1/applications"
         headers := [("Authorization", "Bearer " ++ token),
                     ("Content-Type", "application/json")]
         queryParams :=
           match search with
           | some s => if s = "" then [] else [("search", s)]
           | none => []
         verify := false }] ∧
    ((ArgoCDClient.init base token).get_application world name).2 =
      [{ reqMethod := "GET"
         url := rstripSlashes base ++ "/api/v1/applications/" ++ name
         headers := [("Authorization", "Bearer " ++ token),
                     ("Content-Type", "application/json")]
         queryParams := []
         verify := false }] ∧
    ((ArgoCDClient.init base token).get_application_resource_tree world tname).2 =
      [{ reqMethod := "GET"
         url := rstripSlashes base ++ "/api/v1/applications/" ++ tname ++ "/resource-tree"
         headers := [("Authorization", "Bearer " ++ token),
                     ("Content-Type", "application/json")]
         queryParams := []
         verify := false }] :=
  ⟨rfl, rfl, rfl⟩

/-- Claim C7 counterexample: no environment accepted at startup can make any
outbound request verify the transport certificate — `verify=False` is a
hard-coded literal at each `requests.get` call site, not a configuration
flag, so enabling verification requires a code change.  This refutes
"controlled by a configuration flag read at startup". -/
theorem C7_counterexample :
    ¬ ∃ (env : String → Option String) (st : ServerState)
        (world : HttpRequest → HttpResponse) (search : Option String)
        (name : String) (req : HttpRequest),
      startup env = Except.ok st ∧
      (req ∈ (st.client.list_applications world search).2 ∨
       req ∈ (st.client.get_application world name).2 ∨
       req ∈ (st.client.get_application_resource_tree world name).2) ∧
      req.verify = true := by
  rintro ⟨env, st, world, search, name, req, hok, hmem, hver⟩
  rcases hmem with h | h | h
  · simp only [ArgoCDClient.list_applications, argoGet, List.mem_singleton] at h
    subst h
    simp [listApplicationsRequest] at hver
  · simp only [ArgoCDClient.get_application, argoGet, List.mem_singleton] at h
    subst h
    simp [getApplicationRequest] at hver
  · simp only [ArgoCDClient.get_application_resource_tree, argoGet,
      List.mem_singleton] at h
    subst h
    simp [resourceTreeRequest] at hver

/-- Claim C7 as amended (corrected): every request any client instance puts
on the wire — in particular any client a successful startup constructs —
has `verify = false`; transport certificate verification is hard-coded off
for all three operations and no configuration can turn it on. -/
theorem C7_verify_hardcoded (c : ArgoCDClient) (world : HttpRequest → HttpResponse)
    (search : Option String) (name tname : String) :
    (c.list_applications world search).2.map HttpRequest.verify = [false] ∧
    (c.get_application world name).2.map HttpRequest.verify = [false] ∧
    (c.get_application_resource_tree world tname).2.map HttpRequest.verify = [false] :=
  ⟨rfl, rfl, rfl⟩
